import Mathlib

/-
Verification of the factom-api python client (`factom/client.py`).

The client is a protocol-sequencing layer over two JSON-RPC daemons.  We embed
it shallowly: JSON values are an inductive type, an RPC invocation is a `Req`
(method name plus the JSON body the client builds), the environment is an
`Oracle` mapping each request to an HTTP response, and a client computation is
a state-passing function `M α` that threads the trace of issued requests and
aborts on the first failure — mirroring Python exception propagation.

The two daemons (factomd on one host, factom-walletd on the other) share a
single request trace here; requests are distinguished by their method name,
which is unambiguous since the two method catalogues are disjoint.
-/

namespace Factom

/-- JSON values, as decoded from the wire.  Objects are association lists in
insertion order, matching Python dicts. -/
inductive Json where
  | null : Json
  | str : String → Json
  | int : Int → Json
  | arr : List Json → Json
  | obj : List (String × Json) → Json
deriving Repr

/-- Python truthiness of a decoded JSON value (`if params:` in `_request`). -/
def Json.truthy : Json → Bool
  | .null => false
  | .str s => if s = "" then false else true
  | .int n => if n = 0 then false else true
  | .arr [] => false
  | .arr (_ :: _) => true
  | .obj [] => false
  | .obj (_ :: _) => true

/-- Field lookup on a JSON object (`resp['key']`); `none` models a Python
`KeyError`/`TypeError` site. -/
def Json.get? : Json → String → Option Json
  | .obj l, k => l.lookup k
  | _, _ => none

/-- An RPC request as issued by the client: the JSON-RPC method and the full
JSON body that was POSTed. -/
structure Req where
  method : String
  body : Json
deriving Repr

/-- An HTTP response: status code and decoded JSON body. -/
structure HttpResp where
  status : Nat
  body : Json
deriving Repr

/-- Ways a client computation can abort.  `typed` is the classified error the
exceptions module raises for an HTTP error status (modelled from the spec,
the module itself is out of scope); the remaining constructors model uncaught
Python exceptions at specific sites, plus `outOfFuel`, which marks the
(otherwise unbounded) chain-traversal loop exceeding its fuel. -/
inductive Failure where
  | typed (status : Nat) (body : Json)
  | keyError (key : String)
  | typeError : Failure
  | valueError : Failure
  | outOfFuel : Failure
deriving Repr

/-- The environment: how the daemons answer each request. -/
def Oracle := Req → HttpResp

/-- A client computation: given the environment and the trace of requests
issued so far, produce a result (or a failure) and the extended trace. -/
def M (α : Type) := Oracle → List Req → Except Failure α × List Req

def M.pure {α : Type} (a : α) : M α := fun _ t => (.ok a, t)

def M.bind {α β : Type} (x : M α) (f : α → M β) : M β := fun o t =>
  match x o t with
  | (.ok a, t') => f a o t'
  | (.error e, t') => (.error e, t')

end Factom

namespace Factom

/-- Null-block sentinel (`NULL_BLOCK` in `client.py`): the all-zero key
merkle root marking the start of a chain. -/
def NULL_BLOCK : String :=
  "0000000000000000000000000000000000000000000000000000000000000000"

/-- The configured per-client defaults (`self.ec_address`, `self.fct_address`);
`none` models Python `None`. -/
structure Client where
  ec_address : Option String
  fct_address : Option String
deriving Repr

/-- Python truthiness of an optional string argument. -/
def pyFalsy : Option String → Bool
  | none => true
  | some s => if s = "" then true else false

/-- Python `a or b` on optional string values. -/
def pyOr (a b : Option String) : Option String :=
  if pyFalsy a then b else a

/-- A Python optional string as a JSON value (`None` serializes to null). -/
def pyStr : Option String → Json
  | none => .null
  | some s => .str s

/-- Alphabet used by `_xact_name`: `string.ascii_uppercase + string.digits`. -/
def XACT_CHARS : List Char := "ABCDEFGHIJKLMNOPQRSTUVWXYZ0123456789".toList

theorem XACT_CHARS_length : XACT_CHARS.length = 36 := by decide

/-- Transaction-name helper (`_xact_name`): `'TX_' + 6 random characters` from
`XACT_CHARS`.  The six draws of `random.choices` are the argument `pick`. -/
def xact_name (pick : Fin 6 → Fin 36) : String :=
  String.mk ('T' :: 'X' :: '_' ::
    (List.finRange 6).map (fun i => XACT_CHARS.get (Fin.cast XACT_CHARS_length.symm (pick i))))

/-- The JSON-RPC body `_request` builds: jsonrpc/id/method, with `params`
added only when truthy (`if params: data['params'] = params`). -/
def buildBody (method : String) (pyid : Int) (params : Option Json) : Json :=
  let base := [("jsonrpc", Json.str "2.0"), ("id", Json.int pyid), ("method", Json.str method)]
  match params with
  | some p => if p.truthy then .obj (base ++ [("params", p)]) else .obj base
  | none => .obj base

/-- The request `_request` issues for a method and params (id is always the
default 0; no call site overrides it). -/
def mkReq (method : String) (params : Option Json) : Req :=
  ⟨method, buildBody method 0 params⟩

/-- Response handling in `_request`: an HTTP status ≥ 400 is handed to
`handle_error_response` (modelled from the spec: it always raises a typed
error classified from the response); otherwise the body's `result` field is
returned, a missing field raising an uncaught `KeyError`. -/
def handleResp (resp : HttpResp) : Except Failure Json :=
  if 400 ≤ resp.status then .error (.typed resp.status resp.body)
  else
    match resp.body.get? "result" with
    | some v => .ok v
    | none => .error (.keyError "result")

/-- The `_request` method: build the body, POST it (recording it in the
trace), and handle the response. -/
def _request (method : String) (params : Option Json) : M Json := fun o t =>
  let req := mkReq method params
  match handleResp (o req) with
  | .ok v => (.ok v, t ++ [req])
  | .error e => (.error e, t ++ [req])

/-- Python subscription `j['k']` inside a workflow: the field if present,
otherwise an aborting `KeyError`. -/
def jget (j : Json) (k : String) : M Json := fun _ t =>
  match j.get? k with
  | some v => (.ok v, t)
  | none => (.error (.keyError k), t)

/-- Python iteration over a JSON value that must be a list (`reversed(...)`
raises a `TypeError` on anything else). -/
def jarr (j : Json) : M (List Json) := fun _ t =>
  match j with
  | .arr l => (.ok l, t)
  | _ => (.error .typeError, t)

/-- Python `keymr != NULL_BLOCK` on a decoded JSON value: equal exactly when
the value is the sentinel string. -/
def jstrEq (j : Json) (s : String) : Bool :=
  match j with
  | .str s' => if s' = s then true else false
  | _ => false

end Factom

namespace Factom

/-- A decoded (`unhex`ed) value at the client boundary: Python `None` for a
falsy input, a byte string, or a list of byte strings. -/
inductive Decoded where
  | pynone : Decoded
  | bytes : List Nat → Decoded
  | byteList : List (List Nat) → Decoded
deriving Repr, DecidableEq

/-- Value of a single hex digit, or `none` for a non-hex character. -/
def hexVal? (c : Char) : Option Nat :=
  if '0' ≤ c ∧ c ≤ '9' then some (c.toNat - '0'.toNat)
  else if 'a' ≤ c ∧ c ≤ 'f' then some (c.toNat - 'a'.toNat + 10)
  else if 'A' ≤ c ∧ c ≤ 'F' then some (c.toNat - 'A'.toNat + 10)
  else none

/-- Hex-decode a character sequence into bytes; fails on odd length or
non-hex characters. -/
def unhexBytes : List Char → Option (List Nat)
  | [] => some []
  | [_] => none
  | a :: b :: rest =>
    match hexVal? a, hexVal? b, unhexBytes rest with
    | some hi, some lo, some tail => some ((16 * hi + lo) :: tail)
    | _, _, _ => none

/-- Hex-decode one list element (`codecs.decode(i, 'hex')`): the element must
be a string of hex digits. -/
def unhexOne : Json → Option (List Nat)
  | .str s => unhexBytes s.toList
  | _ => none

/-- Modelled from the spec: the out-of-scope `utils.unhex` helper.  External
ids and content are hex strings on the wire and raw byte sequences at the
client boundary; a falsy input decodes to `None`, a list element-wise.
`none` here models the exception a malformed value raises. -/
def unhex : Json → Option Decoded
  | .null => some .pynone
  | .str s => if s = "" then some .pynone else (unhexBytes s.toList).map .bytes
  | .int n => if n = 0 then some .pynone else none
  | .arr [] => some .pynone
  | .arr (j :: l) => ((j :: l).mapM unhexOne).map .byteList
  | .obj _ => none

/-- Hex digits (lowercase) of a character's byte value. -/
def hexPairs : List Char → List Char
  | [] => []
  | ch :: rest => Nat.digitChar (ch.toNat % 256 / 16) :: Nat.digitChar (ch.toNat % 16) :: hexPairs rest

/-- Modelled from the spec: the out-of-scope `utils.hex` helper on a string
(entry content): hex-encode, with a falsy input encoding to `None`. -/
def pyhexStr (s : String) : Json :=
  if s = "" then .null else .str (String.mk (hexPairs s.toList))

/-- Modelled from the spec: the out-of-scope `utils.hex` helper on a list of
strings (external ids): element-wise hex-encoding, a falsy (empty) list
encoding to `None`. -/
def pyhexList (l : List String) : Json :=
  if l = [] then .null else .arr (l.map (fun s => .str (String.mk (hexPairs s.toList))))

/-- The record `read_chain` appends for one entry. -/
structure EntryRecord where
  chainid : Json
  extids : Decoded
  content : Decoded
deriving Repr

/-- Lift `unhex` into a workflow step; a decode failure aborts like the
exception it models. -/
def munhex (j : Json) : M Decoded := fun _ t =>
  match unhex j with
  | some d => (.ok d, t)
  | none => (.error .valueError, t)

/-- Factomd method `chain_head`. -/
def chain_head (chain_id : String) : M Json :=
  _request "chain-head" (some (.obj [("chainid", .str chain_id)]))

/-- Factomd method `commit_chain`. -/
def commit_chain (message : Json) : M Json :=
  _request "commit-chain" (some (.obj [("message", message)]))

/-- Factomd method `commit_entry`. -/
def commit_entry (message : Json) : M Json :=
  _request "commit-entry" (some (.obj [("message", message)]))

/-- Factomd method `entry`. -/
def entry (hash : Json) : M Json :=
  _request "entry" (some (.obj [("hash", hash)]))

/-- Factomd method `entry_block`. -/
def entry_block (keymr : Json) : M Json :=
  _request "entry-block" (some (.obj [("keymr", keymr)]))

/-- Factomd method `entry_credit_balance` (address defaults to the client's
`ec_address` via Python `or`). -/
def entry_credit_balance (self : Client) (ec_address : Option String) : M Json :=
  _request "entry-credit-balance" (some (.obj [("address", pyStr (pyOr ec_address self.ec_address))]))

/-- Factomd method `entry_credit_rate` (no params). -/
def entry_credit_rate : M Json :=
  _request "entry-credit-rate" none

/-- Factomd method `factoid_balance`. -/
def factoid_balance (self : Client) (fct_address : Option String) : M Json :=
  _request "factoid-balance" (some (.obj [("address", pyStr (pyOr fct_address self.fct_address))]))

/-- Factomd method `factoid_submit`. -/
def factoid_submit (transaction : Json) : M Json :=
  _request "factoid-submit" (some (.obj [("transaction", transaction)]))

/-- Factomd method `reveal_chain`. -/
def reveal_chain (entry : Json) : M Json :=
  _request "reveal-chain" (some (.obj [("entry", entry)]))

/-- Factomd method `reveal_entry`. -/
def reveal_entry (entry : Json) : M Json :=
  _request "reveal-entry" (some (.obj [("entry", entry)]))

/-- Body of `read_chain`'s inner `for` loop for one entry hash: fetch the
entry and build its decoded record (field accesses and `unhex` in the
evaluation order of the Python dict literal). -/
def readEntry (h : Json) : M EntryRecord :=
  M.bind (jget h "entryhash") fun ehash =>
  M.bind (entry ehash) fun e =>
  M.bind (jget e "chainid") fun cid =>
  M.bind (jget e "extids") fun ex =>
  M.bind (munhex ex) fun dex =>
  M.bind (jget e "content") fun co =>
  M.bind (munhex co) fun dco =>
  M.pure ⟨cid, dex, dco⟩

/-- The inner `for hash in reversed(block['entrylist'])` loop, appending each
decoded record to the accumulated `entries` list. -/
def readEntries : List Json → List EntryRecord → M (List EntryRecord)
  | [], acc => M.pure acc
  | h :: rest, acc => M.bind (readEntry h) fun r => readEntries rest (acc ++ [r])

/-- The `while keymr != NULL_BLOCK` loop of `read_chain`.  The Python loop is
unbounded; `fuel` bounds it here, and exhausting the fuel (impossible on a
well-formed chain, see `readChainLoop_spec`) reports `outOfFuel`. -/
def readChainLoop (fuel : Nat) (keymr : Json) (acc : List EntryRecord) : M (List EntryRecord) :=
  if jstrEq keymr NULL_BLOCK then M.pure acc
  else
    match fuel with
    | 0 => fun _ t => (.error .outOfFuel, t)
    | fuel' + 1 =>
      M.bind (entry_block keymr) fun block =>
      M.bind (jget block "entrylist") fun elist =>
      M.bind (jarr elist) fun hs =>
      M.bind (readEntries hs.reverse acc) fun acc' =>
      M.bind (jget block "header") fun hdr =>
      M.bind (jget hdr "prevkeymr") fun pk =>
      readChainLoop fuel' pk acc'

/-- Factomd convenience method `read_chain`: walk the chain from its head,
collecting decoded entries newest-first. -/
def read_chain (fuel : Nat) (chain_id : String) : M (List EntryRecord) :=
  M.bind (chain_head chain_id) fun hd =>
  M.bind (jget hd "chainhead") fun keymr =>
  readChainLoop fuel keymr []

end Factom

namespace Factom

/-- Walletd method `add_ec_output` (address defaults to `self.ec_address`). -/
def add_ec_output (self : Client) (name : String) (amount : Int) (ec_address : Option String) : M Json :=
  _request "add-ec-output" (some (.obj [
    ("tx-name", .str name),
    ("amount", .int amount),
    ("address", pyStr (pyOr ec_address self.ec_address))]))

/-- Walletd method `add_fee` (address defaults to `self.fct_address`). -/
def add_fee (self : Client) (name : String) (fct_address : Option String) : M Json :=
  _request "add-fee" (some (.obj [
    ("tx-name", .str name),
    ("address", pyStr (pyOr fct_address self.fct_address))]))

/-- Walletd method `add_input` (address defaults to `self.fct_address`). -/
def add_input (self : Client) (name : String) (amount : Int) (fct_address : Option String) : M Json :=
  _request "add-input" (some (.obj [
    ("tx-name", .str name),
    ("amount", .int amount),
    ("address", pyStr (pyOr fct_address self.fct_address))]))

/-- Walletd method `add_output` (the output address is a required argument,
no default). -/
def add_output (name : String) (amount : Int) (fct_address : String) : M Json :=
  _request "add-output" (some (.obj [
    ("tx-name", .str name),
    ("amount", .int amount),
    ("address", .str fct_address)]))

/-- Walletd method `compose_transaction`. -/
def compose_transaction (name : String) : M Json :=
  _request "compose-transaction" (some (.obj [("tx-name", .str name)]))

/-- Walletd method `new_transaction`: a falsy name falls back to a freshly
generated one (`name or self._xact_name()`), the fallback draws being
`pick`. -/
def new_transaction (_self : Client) (pick : Fin 6 → Fin 36) (name : Option String) : M Json :=
  _request "new-transaction" (some (.obj [
    ("tx-name", pyStr (pyOr name (some (xact_name pick))))]))

/-- Walletd method `sign_transaction`. -/
def sign_transaction (name : String) : M Json :=
  _request "sign-transaction" (some (.obj [("tx-name", .str name)]))

/-- Walletd method `sub_fee` (address required, no default). -/
def sub_fee (name : String) (fct_address : String) : M Json :=
  _request "sub-fee" (some (.obj [
    ("tx-name", .str name),
    ("address", .str fct_address)]))

/-- Walletd convenience method `new_chain`: compose on the wallet, commit on
the node, wait (`time.sleep(2)`, a pure delay with no observable effect
here), then reveal on the node.  The `factomd` argument carries no state in
this model; its methods issue into the shared trace. -/
def new_chain (self : Client) (ext_ids : List String) (content : String) (ec_address : Option String) : M Json :=
  M.bind (_request "compose-chain" (some (.obj [
      ("chain", .obj [("firstentry", .obj [
        ("extids", pyhexList ext_ids),
        ("content", pyhexStr content)])]),
      ("ecpub", pyStr (pyOr ec_address self.ec_address))]))) fun calls =>
  M.bind (jget calls "commit") fun cm =>
  M.bind (jget cm "params") fun cp =>
  M.bind (jget cp "message") fun msg =>
  M.bind (commit_chain msg) fun _ =>
  M.bind (jget calls "reveal") fun rv =>
  M.bind (jget rv "params") fun rp =>
  M.bind (jget rp "entry") fun ent =>
  reveal_chain ent

/-- Walletd convenience method `new_entry`: like `new_chain`, scoped to an
existing chain (compose-entry / commit-entry / sleep / reveal-entry). -/
def new_entry (self : Client) (chain_id : String) (ext_ids : List String) (content : String) (ec_address : Option String) : M Json :=
  M.bind (_request "compose-entry" (some (.obj [
      ("entry", .obj [
        ("chainid", .str chain_id),
        ("extids", pyhexList ext_ids),
        ("content", pyhexStr content)]),
      ("ecpub", pyStr (pyOr ec_address self.ec_address))]))) fun calls =>
  M.bind (jget calls "commit") fun cm =>
  M.bind (jget cm "params") fun cp =>
  M.bind (jget cp "message") fun msg =>
  M.bind (commit_entry msg) fun _ =>
  M.bind (jget calls "reveal") fun rv =>
  M.bind (jget rv "params") fun rp =>
  M.bind (jget rp "entry") fun ent =>
  reveal_entry ent

/-- Walletd convenience method `fct_to_ec`: build, sign, compose and submit a
factoid-to-entry-credit transaction under one generated name. -/
def fct_to_ec (self : Client) (pick : Fin 6 → Fin 36) (amount : Int) (fct_address ec_address : Option String) : M Json :=
  let name := xact_name pick
  M.bind (new_transaction self pick (some name)) fun _ =>
  M.bind (add_input self name amount fct_address) fun _ =>
  M.bind (add_ec_output self name amount ec_address) fun _ =>
  M.bind (add_fee self name fct_address) fun _ =>
  M.bind (sign_transaction name) fun _ =>
  M.bind (compose_transaction name) fun call =>
  M.bind (jget call "params") fun p =>
  M.bind (jget p "transaction") fun tx =>
  factoid_submit tx

/-- Walletd convenience method `fct_to_fct`: like `fct_to_ec` with a plain
factoid output to `fct_to` instead of an entry-credit output. -/
def fct_to_fct (self : Client) (pick : Fin 6 → Fin 36) (amount : Int) (fct_to : String) (fct_from : Option String) : M Json :=
  let name := xact_name pick
  M.bind (new_transaction self pick (some name)) fun _ =>
  M.bind (add_input self name amount fct_from) fun _ =>
  M.bind (add_output name amount fct_to) fun _ =>
  M.bind (add_fee self name fct_from) fun _ =>
  M.bind (sign_transaction name) fun _ =>
  M.bind (compose_transaction name) fun call =>
  M.bind (jget call "params") fun p =>
  M.bind (jget p "transaction") fun tx =>
  factoid_submit tx

end Factom

namespace Factom

/-- Abstract model of one entry as the daemon stores it: chain id, and the
wire (hex-encoded) external ids and content. -/
structure EntryModel where
  chainid : String
  extids : List String
  content : String
deriving Repr, DecidableEq

/-- Abstract model of one entry block: its key merkle root, the previous
block's (`prevkeymr`), and its entry hashes oldest-to-newest. -/
structure BlockModel where
  keymr : String
  prevkeymr : String
  entryhashes : List String
deriving Repr, DecidableEq

/-- Abstract model of a chain as the daemon serves it: blocks listed
newest-first (the head block first), and the entry store. -/
structure ChainModel where
  chain_id : String
  blocks : List BlockModel
  entries : List (String × EntryModel)
deriving Repr, DecidableEq

/-- The daemon's head pointer: the newest block's keymr, or the sentinel for
an empty chain. -/
def headOf : List BlockModel → String
  | [] => NULL_BLOCK
  | b :: _ => b.keymr

/-- Blocks are linked newest-to-oldest: each block's `prevkeymr` names the
next listed block, and the oldest block's names the sentinel. -/
def linkedB : List BlockModel → Bool
  | [] => true
  | [b] => b.prevkeymr == NULL_BLOCK
  | b :: b' :: rest => b.prevkeymr == b'.keymr && linkedB (b' :: rest)

/-- An entry hash is resolvable: present in the store with hex-decodable
external ids and content. -/
def entryOK (entries : List (String × EntryModel)) (h : String) : Bool :=
  match entries.lookup h with
  | some e => (unhex (.arr (e.extids.map .str))).isSome && (unhex (.str e.content)).isSome
  | none => false

/-- Well-formed chain model: distinct non-sentinel block keymrs, correct
newest-to-oldest linkage, and every referenced entry resolvable. -/
def ChainModel.WF (m : ChainModel) : Prop :=
  (m.blocks.map (·.keymr)).Nodup
  ∧ (∀ b ∈ m.blocks, b.keymr ≠ NULL_BLOCK)
  ∧ linkedB m.blocks = true
  ∧ (∀ b ∈ m.blocks, ∀ h ∈ b.entryhashes, entryOK m.entries h = true)

/-- The JSON the daemon serves for one entry. -/
def entryJson (e : EntryModel) : Json :=
  .obj [("chainid", .str e.chainid),
        ("extids", .arr (e.extids.map .str)),
        ("content", .str e.content)]

/-- The JSON the daemon serves for one entry block. -/
def blockJson (b : BlockModel) : Json :=
  .obj [("header", .obj [("prevkeymr", .str b.prevkeymr)]),
        ("entrylist", .arr (b.entryhashes.map (fun h => .obj [("entryhash", .str h)])))]

/-- A successful JSON-RPC response carrying `result`. -/
def okResp (j : Json) : HttpResp :=
  ⟨200, .obj [("result", j)]⟩

/-- A failed JSON-RPC response (HTTP 400 with an error object). -/
def errResp : HttpResp :=
  ⟨400, .obj [("error", .obj [("code", .int (-32008)), ("message", .str "Not Found")])]⟩

/-- The environment a well-behaved node presents for one chain: answers
`chain-head`, `entry-block` and `entry` lookups from the model, and rejects
everything else. -/
def chainOracle (m : ChainModel) : Oracle := fun req =>
  let p := req.body.get? "params"
  if req.method = "chain-head" then
    match p.bind (fun q => q.get? "chainid") with
    | some (.str c) => if c = m.chain_id then okResp (.obj [("chainhead", .str (headOf m.blocks))]) else errResp
    | _ => errResp
  else if req.method = "entry-block" then
    match p.bind (fun q => q.get? "keymr") with
    | some (.str k) =>
      match m.blocks.find? (fun b => b.keymr == k) with
      | some b => okResp (blockJson b)
      | none => errResp
    | _ => errResp
  else if req.method = "entry" then
    match p.bind (fun q => q.get? "hash") with
    | some (.str h) =>
      match m.entries.lookup h with
      | some e => okResp (entryJson e)
      | none => errResp
    | _ => errResp
  else errResp

/-- The record the spec expects for one entry hash: the stored entry's chain
id with its external ids and content hex-decoded. -/
def recordOf (entries : List (String × EntryModel)) (h : String) : EntryRecord :=
  match entries.lookup h with
  | some e => ⟨.str e.chainid,
               (unhex (.arr (e.extids.map .str))).getD .pynone,
               (unhex (.str e.content)).getD .pynone⟩
  | none => ⟨.null, .pynone, .pynone⟩

/-- The complete entry list in reverse chronological order: blocks
newest-first, and within each block its (oldest-to-newest) entry hashes
reversed. -/
def expectedOf (entries : List (String × EntryModel)) : List BlockModel → List EntryRecord
  | [] => []
  | b :: bs => b.entryhashes.reverse.map (recordOf entries) ++ expectedOf entries bs

end Factom

namespace Factom

/-- The `params` sub-object of a request, if any. -/
def reqParam (req : Req) (k : String) : Option Json :=
  (req.body.get? "params").bind (fun p => p.get? k)

@[simp] theorem mkReq_method (method : String) (params : Option Json) :
    (mkReq method params).method = method := rfl

@[simp] theorem M.pure_eval {α : Type} (a : α) (o : Oracle) (t : List Req) :
    M.pure a o t = (.ok a, t) := rfl

theorem M.bind_eval {α β : Type} (x : M α) (f : α → M β) (o : Oracle) (t : List Req) :
    M.bind x f o t =
      (match x o t with
       | (.ok a, t') => f a o t'
       | (.error e, t') => (.error e, t')) := rfl

theorem _request_eval (method : String) (params : Option Json) (o : Oracle) (t : List Req) :
    _request method params o t =
      (match handleResp (o (mkReq method params)) with
       | .ok v => (.ok v, t ++ [mkReq method params])
       | .error e => (.error e, t ++ [mkReq method params])) := rfl

theorem jget_eval (j : Json) (k : String) (o : Oracle) (t : List Req) :
    jget j k o t =
      (match j.get? k with
       | some v => (.ok v, t)
       | none => (.error (.keyError k), t)) := rfl

theorem jarr_eval (j : Json) (o : Oracle) (t : List Req) :
    jarr j o t =
      (match j with
       | .arr l => (.ok l, t)
       | _ => (.error .typeError, t)) := rfl

theorem munhex_eval (j : Json) (o : Oracle) (t : List Req) :
    munhex j o t =
      (match unhex j with
       | some d => (.ok d, t)
       | none => (.error .valueError, t)) := rfl

@[simp] theorem M.bind_request {β : Type} (method : String) (params : Option Json)
    (k : Json → M β) (o : Oracle) (t : List Req) :
    M.bind (_request method params) k o t =
      (match handleResp (o (mkReq method params)) with
       | .ok v => k v o (t ++ [mkReq method params])
       | .error e => (.error e, t ++ [mkReq method params])) := by
  cases h : handleResp (o (mkReq method params)) <;> simp [M.bind, _request, h]

@[simp] theorem M.bind_jget {β : Type} (j : Json) (key : String) (k : Json → M β)
    (o : Oracle) (t : List Req) :
    M.bind (jget j key) k o t =
      (match j.get? key with
       | some v => k v o t
       | none => (.error (.keyError key), t)) := by
  cases h : j.get? key <;> simp [M.bind, jget, h]

@[simp] theorem M.bind_jarr {β : Type} (j : Json) (k : List Json → M β)
    (o : Oracle) (t : List Req) :
    M.bind (jarr j) k o t =
      (match j with
       | .arr l => k l o t
       | _ => (.error .typeError, t)) := by
  cases j <;> simp [M.bind, jarr]

@[simp] theorem M.bind_munhex {β : Type} (j : Json) (k : Decoded → M β)
    (o : Oracle) (t : List Req) :
    M.bind (munhex j) k o t =
      (match unhex j with
       | some d => k d o t
       | none => (.error .valueError, t)) := by
  cases h : unhex j <;> simp [M.bind, munhex, h]

@[simp] theorem M.bind_pure {α β : Type} (a : α) (k : α → M β) (o : Oracle) (t : List Req) :
    M.bind (M.pure a) k o t = k a o t := rfl

theorem xact_name_length (pick : Fin 6 → Fin 36) : (xact_name pick).length = 9 := by
  simp [xact_name, String.length]

theorem xact_name_ne_empty (pick : Fin 6 → Fin 36) : xact_name pick ≠ "" := by
  intro h
  have := xact_name_length pick
  rw [h] at this
  simp at this

@[simp] theorem pyOr_xact (pick : Fin 6 → Fin 36) (b : Option String) :
    pyOr (some (xact_name pick)) b = some (xact_name pick) := by
  simp [pyOr, pyFalsy, xact_name_ne_empty pick]

theorem pyOr_falsy (a b : Option String) (h : pyFalsy a = true) : pyOr a b = b := by
  simp [pyOr, h]

end Factom

namespace Factom

/-- The full method sequence of `fct_to_ec`. -/
def ecMethods : List String :=
  ["new-transaction", "add-input", "add-ec-output", "add-fee",
   "sign-transaction", "compose-transaction", "factoid-submit"]

/-- The full method sequence of `fct_to_fct`. -/
def fctMethods : List String :=
  ["new-transaction", "add-input", "add-output", "add-fee",
   "sign-transaction", "compose-transaction", "factoid-submit"]

/-- C2: in every invocation of `fct_to_ec` and of `fct_to_fct`, the RPC calls
are issued in the fixed order new-transaction, add-input, add-output
(add-ec-output for `fct_to_ec`), add-fee, sign-transaction,
compose-transaction, factoid-submit: the issued trace is always an initial
segment of that order, a call that fails is the last call issued (so in
particular factoid-submit is never issued after an earlier failure), and a
successful run issues exactly the full sequence. -/
theorem fct_workflow_call_order (self : Client) (pick : Fin 6 → Fin 36) (amount : Int)
    (fct_address ec_address : Option String) (fct_to : String) (fct_from : Option String)
    (o : Oracle) :
    ((∃ rest, (fct_to_ec self pick amount fct_address ec_address o []).2.map Req.method ++ rest = ecMethods)
      ∧ (∀ req ∈ (fct_to_ec self pick amount fct_address ec_address o []).2,
          (∃ e, handleResp (o req) = .error e) →
          (fct_to_ec self pick amount fct_address ec_address o []).2.getLast? = some req)
      ∧ (∀ v, (fct_to_ec self pick amount fct_address ec_address o []).1 = .ok v →
          (fct_to_ec self pick amount fct_address ec_address o []).2.map Req.method = ecMethods))
    ∧ ((∃ rest, (fct_to_fct self pick amount fct_to fct_from o []).2.map Req.method ++ rest = fctMethods)
      ∧ (∀ req ∈ (fct_to_fct self pick amount fct_to fct_from o []).2,
          (∃ e, handleResp (o req) = .error e) →
          (fct_to_fct self pick amount fct_to fct_from o []).2.getLast? = some req)
      ∧ (∀ v, (fct_to_fct self pick amount fct_to fct_from o []).1 = .ok v →
          (fct_to_fct self pick amount fct_to fct_from o []).2.map Req.method = fctMethods)) := by
  refine ⟨⟨?_, ?_, ?_⟩, ?_, ?_, ?_⟩
  · simp only [fct_to_ec, new_transaction, add_input, add_ec_output, add_fee, sign_transaction,
      compose_transaction, factoid_submit, M.bind_request, M.bind_jget, _request_eval, pyOr_xact]
    repeat split
    all_goals exact ⟨_, rfl⟩
  · simp only [fct_to_ec, new_transaction, add_input, add_ec_output, add_fee, sign_transaction,
      compose_transaction, factoid_submit, M.bind_request, M.bind_jget, _request_eval, pyOr_xact]
    repeat split
    all_goals simp_all
  · simp only [fct_to_ec, new_transaction, add_input, add_ec_output, add_fee, sign_transaction,
      compose_transaction, factoid_submit, M.bind_request, M.bind_jget, _request_eval, pyOr_xact]
    repeat split
    all_goals simp [ecMethods]
  · simp only [fct_to_fct, new_transaction, add_input, add_output, add_fee, sign_transaction,
      compose_transaction, factoid_submit, M.bind_request, M.bind_jget, _request_eval, pyOr_xact]
    repeat split
    all_goals exact ⟨_, rfl⟩
  · simp only [fct_to_fct, new_transaction, add_input, add_output, add_fee, sign_transaction,
      compose_transaction, factoid_submit, M.bind_request, M.bind_jget, _request_eval, pyOr_xact]
    repeat split
    all_goals simp_all
  · simp only [fct_to_fct, new_transaction, add_input, add_output, add_fee, sign_transaction,
      compose_transaction, factoid_submit, M.bind_request, M.bind_jget, _request_eval, pyOr_xact]
    repeat split
    all_goals simp [fctMethods]

/-- C10: within a single invocation of `fct_to_ec` or `fct_to_fct`, every
wallet builder call carries the one transaction name generated at the start
of the workflow as its `tx-name` parameter; only the final node-side
factoid-submit call (which carries no name) is excepted. -/
theorem fct_workflow_single_name (self : Client) (pick : Fin 6 → Fin 36) (amount : Int)
    (fct_address ec_address : Option String) (fct_to : String) (fct_from : Option String)
    (o : Oracle) :
    (∀ req ∈ (fct_to_ec self pick amount fct_address ec_address o []).2,
      req.method ≠ "factoid-submit" → reqParam req "tx-name" = some (.str (xact_name pick)))
    ∧ (∀ req ∈ (fct_to_fct self pick amount fct_to fct_from o []).2,
      req.method ≠ "factoid-submit" → reqParam req "tx-name" = some (.str (xact_name pick))) := by
  constructor
  · simp only [fct_to_ec, new_transaction, add_input, add_ec_output, add_fee, sign_transaction,
      compose_transaction, factoid_submit, M.bind_request, M.bind_jget, _request_eval, pyOr_xact]
    repeat split
    all_goals simp [reqParam, mkReq, buildBody, Json.get?, Json.truthy, pyStr, List.lookup]
  · simp only [fct_to_fct, new_transaction, add_input, add_output, add_fee, sign_transaction,
      compose_transaction, factoid_submit, M.bind_request, M.bind_jget, _request_eval, pyOr_xact]
    repeat split
    all_goals simp [reqParam, mkReq, buildBody, Json.get?, Json.truthy, pyStr, List.lookup]

/-- C3: in every invocation of `new_chain` in which the commit-chain call
fails, the error the caller observes is exactly the commit call's error, and
no reveal-chain call is ever issued. -/
theorem new_chain_commit_failure_aborts (self : Client) (ext_ids : List String) (content : String)
    (ec_address : Option String) (o : Oracle) :
    ∀ req ∈ (new_chain self ext_ids content ec_address o []).2, req.method = "commit-chain" →
      ∀ e, handleResp (o req) = .error e →
        (new_chain self ext_ids content ec_address o []).1 = .error e
        ∧ ∀ req' ∈ (new_chain self ext_ids content ec_address o []).2, req'.method ≠ "reveal-chain" := by
  simp only [new_chain, commit_chain, reveal_chain, M.bind_request, M.bind_jget, _request_eval]
  repeat split
  all_goals simp_all [mkReq]

end Factom

namespace Factom

/-- A concrete client configuration for witnesses. -/
def cfg0 : Client := ⟨some "EC0", some "FA0"⟩

/-- A concrete draw of the six random characters. -/
def pick0 : Fin 6 → Fin 36 := fun _ => 0

/-- An environment answering every request with an empty success. -/
def okOracle : Oracle := fun _ => okResp .null

/-- An environment failing exactly the add-fee call. -/
def failFeeOracle : Oracle := fun req => if req.method = "add-fee" then errResp else okResp .null

/-- A wallet compose-chain result carrying the commit and reveal call
descriptors. -/
def composeOk : Json :=
  .obj [("commit", .obj [("params", .obj [("message", .str "0123")])]),
        ("reveal", .obj [("params", .obj [("entry", .str "abcd")])])]

/-- An environment that serves the compose result but fails the commit. -/
def commitFailOracle : Oracle := fun req =>
  if req.method = "commit-chain" then errResp else okResp composeOk

/-- C2 witness: on an environment that fails the add-fee call, the issued
methods are an initial segment of the fixed order and the failed add-fee call
is the last request issued — factoid-submit never is. -/
theorem fct_workflow_call_order_witness :
    (∃ rest, (fct_to_ec cfg0 pick0 1 none none failFeeOracle []).2.map Req.method ++ rest = ecMethods)
    ∧ (fct_to_ec cfg0 pick0 1 none none failFeeOracle []).2.getLast?
        = some (mkReq "add-fee" (some (.obj [("tx-name", .str (xact_name pick0)), ("address", .str "FA0")]))) := by
  have h := fct_workflow_call_order cfg0 pick0 1 none none "FAOUT" none failFeeOracle
  refine ⟨h.1.1, h.1.2.1 _ ?_ ⟨.typed 400 errResp.body, rfl⟩⟩
  show _ ∈ _
  exact List.Mem.tail _ (List.Mem.tail _ (List.Mem.tail _ (List.Mem.head _)))

/-- C10 witness: in a concrete `fct_to_ec` run the add-input call carries the
name generated at the start of the workflow. -/
theorem fct_workflow_single_name_witness :
    reqParam (mkReq "add-input" (some (.obj [("tx-name", .str (xact_name pick0)), ("amount", .int 1), ("address", .str "FA0")]))) "tx-name"
      = some (.str (xact_name pick0)) := by
  refine (fct_workflow_single_name cfg0 pick0 1 none none "FAOUT" none okOracle).1 _ ?_ ?_
  · show _ ∈ _
    exact List.Mem.tail _ (List.Mem.head _)
  · decide

/-- C3 witness: on an environment that fails the commit-chain call, the
caller observes the commit error and no reveal-chain request is issued. -/
theorem new_chain_commit_failure_aborts_witness :
    (new_chain cfg0 ["e"] "c" none commitFailOracle []).1 = .error (.typed 400 errResp.body)
    ∧ ∀ req' ∈ (new_chain cfg0 ["e"] "c" none commitFailOracle []).2, req'.method ≠ "reveal-chain" := by
  refine new_chain_commit_failure_aborts cfg0 ["e"] "c" none commitFailOracle
    (mkReq "commit-chain" (some (.obj [("message", .str "0123")]))) ?_ rfl
    (.typed 400 errResp.body) rfl
  show _ ∈ _
  exact List.Mem.tail _ (List.Mem.head _)

end Factom

namespace Factom

/-- C5 counterexample: the sentinel `read_chain` compares `prevkeymr`
against is not the 66-character all-zero string the spec names — it has 64
characters (a 32-byte hash in hex). -/
theorem null_block_not_sixty_six :
    NULL_BLOCK ≠ String.mk (List.replicate 66 '0') ∧ NULL_BLOCK.length = 64 := by
  constructor
  · decide
  · decide

/-- C5 (amended): the null-block sentinel `read_chain` compares `prevkeymr`
against is the 64-character all-zero hex string, and reaching it terminates
the traversal loop at once. -/
theorem null_block_sixty_four_sentinel :
    NULL_BLOCK = String.mk (List.replicate 64 '0')
    ∧ ∀ (fuel : Nat) (acc : List EntryRecord) (o : Oracle) (t : List Req),
        readChainLoop fuel (.str NULL_BLOCK) acc o t = (.ok acc, t) := by
  refine ⟨by decide, fun fuel acc o t => ?_⟩
  rw [readChainLoop.eq_def]
  simp [jstrEq]

/-- C6 (amended): `_request` maps a response to a typed error exactly when
the HTTP status is at least 400; for a status below 400 the body's `result`
value is returned when present, and a body without `result` — in particular
one carrying only a JSON-RPC error object — raises an untyped `KeyError`
instead of a typed error. -/
theorem handleResp_status_criterion (r : HttpResp) :
    ((∃ s b, handleResp r = .error (.typed s b)) ↔ 400 ≤ r.status)
    ∧ (∀ v, r.status < 400 → r.body.get? "result" = some v → handleResp r = .ok v)
    ∧ (r.status < 400 → r.body.get? "result" = none → handleResp r = .error (.keyError "result")) := by
  by_cases h : 400 ≤ r.status
  · refine ⟨⟨fun _ => h, fun _ => ⟨r.status, r.body, by simp [handleResp, h]⟩⟩,
      fun v hlt _ => absurd h (by omega), fun hlt _ => absurd h (by omega)⟩
  · refine ⟨⟨?_, fun hge => absurd hge h⟩, ?_, ?_⟩
    · rintro ⟨s, b, hb⟩
      simp only [handleResp, if_neg h] at hb
      cases hr : r.body.get? "result" <;> rw [hr] at hb <;> exact absurd hb (by simp)
    · intro v _ hres
      simp [handleResp, h, hres]
    · intro _ hres
      simp [handleResp, h, hres]

/-- C6 witness: a 200 response with a `result` field is returned to the
caller. -/
theorem handleResp_status_criterion_witness :
    (200 : Nat) < 400
    ∧ (Json.obj [("result", Json.int 7)]).get? "result" = some (.int 7)
    ∧ handleResp ⟨200, .obj [("result", .int 7)]⟩ = .ok (.int 7) :=
  ⟨by decide, rfl,
    (handleResp_status_criterion ⟨200, .obj [("result", .int 7)]⟩).2.1 (.int 7) (by decide) rfl⟩

/-- C6 counterexample: a 200 response whose body carries a JSON-RPC error
object (and no `result`) is not mapped to a typed error, contradicting the
claim's "exactly when" — it raises the untyped missing-key failure. -/
theorem handleResp_error_object_not_typed :
    ((Json.obj [("error", .obj [("code", .int (-32008))])]).get? "error").isSome = true
    ∧ ¬ 400 ≤ (200 : Nat)
    ∧ handleResp ⟨200, .obj [("error", .obj [("code", .int (-32008))])]⟩ = .error (.keyError "result")
    ∧ ¬ ∃ s b, handleResp ⟨200, .obj [("error", .obj [("code", .int (-32008))])]⟩ = .error (.typed s b) := by
  refine ⟨rfl, by decide, rfl, ?_⟩
  rintro ⟨s, b, hb⟩
  have : handleResp ⟨200, .obj [("error", .obj [("code", .int (-32008))])]⟩ = .error (.keyError "result") := rfl
  rw [this] at hb
  simp at hb

/-- C7: every transaction name the helper produces is non-empty, and is the
stable prefix `TX_` followed by a suffix of exactly six characters, each an
uppercase letter or a digit. -/
theorem xact_name_shape (pick : Fin 6 → Fin 36) :
    xact_name pick ≠ ""
    ∧ ∃ suffix : List Char,
        xact_name pick = "TX_" ++ String.mk suffix
        ∧ suffix.length = 6
        ∧ ∀ c ∈ suffix, ('A' ≤ c ∧ c ≤ 'Z') ∨ ('0' ≤ c ∧ c ≤ '9') := by
  refine ⟨xact_name_ne_empty pick,
    (List.finRange 6).map (fun i => XACT_CHARS.get (Fin.cast XACT_CHARS_length.symm (pick i))),
    rfl, by simp, ?_⟩
  intro c hc
  simp only [List.mem_map] at hc
  obtain ⟨i, _, rfl⟩ := hc
  have hm : XACT_CHARS.get (Fin.cast XACT_CHARS_length.symm (pick i)) ∈ XACT_CHARS :=
    List.get_mem _ _ _
  revert hm
  have : ∀ c ∈ XACT_CHARS, ('A' ≤ c ∧ c ≤ 'Z') ∨ ('0' ≤ c ∧ c ≤ '9') := by decide
  exact this _

/-- C8: every JSON-RPC body the client builds contains `jsonrpc = "2.0"`, the
integer id, and the method name; the `params` field is present exactly when
the params object is non-empty (an absent or empty params object is
omitted). -/
theorem request_body_fields (method : String) (pyid : Int) (l : List (String × Json)) :
    ((buildBody method pyid none).get? "jsonrpc" = some (.str "2.0")
      ∧ (buildBody method pyid none).get? "id" = some (.int pyid)
      ∧ (buildBody method pyid none).get? "method" = some (.str method)
      ∧ (buildBody method pyid none).get? "params" = none)
    ∧ ((buildBody method pyid (some (.obj l))).get? "jsonrpc" = some (.str "2.0")
      ∧ (buildBody method pyid (some (.obj l))).get? "id" = some (.int pyid)
      ∧ (buildBody method pyid (some (.obj l))).get? "method" = some (.str method)
      ∧ ((buildBody method pyid (some (.obj l))).get? "params"
          = match l with
            | [] => none
            | _ :: _ => some (.obj l))) := by
  cases l <;> simp [buildBody, Json.get?, Json.truthy, List.lookup]

end Factom

namespace Factom

/-- C9 (amended): for every operation taking an optional address parameter, a
falsy argument — absent or empty string — makes the client substitute the
configured default address verbatim (so the empty-string argument itself is
never sent; what is sent is the configured default, which is the empty
string only if the default was so configured). -/
theorem falsy_address_uses_default (self : Client) (o : Oracle) (a : Option String)
    (name : String) (amount : Int) (chain_id : String) (ext_ids : List String) (content : String)
    (hf : pyFalsy a = true) :
    ((entry_credit_balance self a o []).2.map (fun r => reqParam r "address")
        = [some (pyStr self.ec_address)])
    ∧ ((factoid_balance self a o []).2.map (fun r => reqParam r "address")
        = [some (pyStr self.fct_address)])
    ∧ ((add_ec_output self name amount a o []).2.map (fun r => reqParam r "address")
        = [some (pyStr self.ec_address)])
    ∧ ((add_fee self name a o []).2.map (fun r => reqParam r "address")
        = [some (pyStr self.fct_address)])
    ∧ ((add_input self name amount a o []).2.map (fun r => reqParam r "address")
        = [some (pyStr self.fct_address)])
    ∧ ((new_chain self ext_ids content a o []).2.head?.map (fun r => reqParam r "ecpub")
        = some (some (pyStr self.ec_address)))
    ∧ ((new_entry self chain_id ext_ids content a o []).2.head?.map (fun r => reqParam r "ecpub")
        = some (some (pyStr self.ec_address))) := by
  refine ⟨?_, ?_, ?_, ?_, ?_, ?_, ?_⟩
  · simp only [entry_credit_balance, _request_eval, pyOr_falsy _ _ hf]
    repeat split
    all_goals simp [reqParam, mkReq, buildBody, Json.get?, Json.truthy, pyStr, List.lookup]
  · simp only [factoid_balance, _request_eval, pyOr_falsy _ _ hf]
    repeat split
    all_goals simp [reqParam, mkReq, buildBody, Json.get?, Json.truthy, pyStr, List.lookup]
  · simp only [add_ec_output, _request_eval, pyOr_falsy _ _ hf]
    repeat split
    all_goals simp [reqParam, mkReq, buildBody, Json.get?, Json.truthy, pyStr, List.lookup]
  · simp only [add_fee, _request_eval, pyOr_falsy _ _ hf]
    repeat split
    all_goals simp [reqParam, mkReq, buildBody, Json.get?, Json.truthy, pyStr, List.lookup]
  · simp only [add_input, _request_eval, pyOr_falsy _ _ hf]
    repeat split
    all_goals simp [reqParam, mkReq, buildBody, Json.get?, Json.truthy, pyStr, List.lookup]
  · simp only [new_chain, commit_chain, reveal_chain, M.bind_request, M.bind_jget,
      _request_eval, pyOr_falsy _ _ hf]
    repeat split
    all_goals simp [reqParam, mkReq, buildBody, Json.get?, Json.truthy, pyStr, List.lookup]
  · simp only [new_entry, commit_entry, reveal_entry, M.bind_request, M.bind_jget,
      _request_eval, pyOr_falsy _ _ hf]
    repeat split
    all_goals simp [reqParam, mkReq, buildBody, Json.get?, Json.truthy, pyStr, List.lookup]

/-- C9 witness: with a configured default and an absent argument, the request
carries the default address. -/
theorem falsy_address_uses_default_witness :
    pyFalsy none = true
    ∧ (entry_credit_balance cfg0 none okOracle []).2.map (fun r => reqParam r "address")
        = [some (.str "EC0")] :=
  ⟨rfl, (falsy_address_uses_default cfg0 okOracle none "T" 1 "c" [] "x" rfl).1⟩

/-- C9 counterexample: when the configured default is itself the empty
string, a falsy (empty-string) argument makes the client send the empty
string as the address — so "the empty string is never sent" is false as
stated. -/
theorem empty_default_empty_address_sent :
    pyFalsy (some "") = true
    ∧ (entry_credit_balance ⟨some "", some ""⟩ (some "") okOracle []).2.map (fun r => reqParam r "address")
        = [some (.str "")] := by
  exact ⟨rfl, rfl⟩

end Factom

namespace Factom

@[simp] theorem M.bind_assoc {α β γ : Type} (x : M α) (f : α → M β) (g : β → M γ)
    (o : Oracle) (t : List Req) :
    M.bind (M.bind x f) g o t = M.bind x (fun a => M.bind (f a) g) o t := by
  simp only [M.bind]
  rcases h : x o t with ⟨r, t'⟩
  cases r <;> rfl

theorem chainOracle_head (m : ChainModel) :
    handleResp (chainOracle m (mkReq "chain-head" (some (.obj [("chainid", .str m.chain_id)]))))
      = .ok (.obj [("chainhead", .str (headOf m.blocks))]) := by
  simp [chainOracle, mkReq, buildBody, Json.get?, Json.truthy, List.lookup, handleResp, okResp]

theorem chainOracle_block (m : ChainModel) (k : String) (b : BlockModel)
    (hfind : m.blocks.find? (fun x => x.keymr == k) = some b) :
    handleResp (chainOracle m (mkReq "entry-block" (some (.obj [("keymr", .str k)]))))
      = .ok (blockJson b) := by
  simp [chainOracle, mkReq, buildBody, Json.get?, Json.truthy, List.lookup, hfind,
    handleResp, okResp]

theorem chainOracle_entry (m : ChainModel) (h : String) (e : EntryModel)
    (hlk : m.entries.lookup h = some e) :
    handleResp (chainOracle m (mkReq "entry" (some (.obj [("hash", .str h)]))))
      = .ok (entryJson e) := by
  simp [chainOracle, mkReq, buildBody, Json.get?, Json.truthy, List.lookup, hlk,
    handleResp, okResp]

theorem find_keymr_self (bs : List BlockModel) :
    (bs.map (fun x => x.keymr)).Nodup →
    ∀ b ∈ bs, bs.find? (fun x => x.keymr == b.keymr) = some b := by
  induction bs with
  | nil => intro _ b hb; cases hb
  | cons a as ih =>
    intro hnd b hb
    rw [List.map_cons, List.nodup_cons] at hnd
    obtain ⟨hna, hnd'⟩ := hnd
    rcases List.mem_cons.mp hb with rfl | hmem
    · simp only [List.find?_cons, beq_self_eq_true]
    · have hne : a.keymr ≠ b.keymr := by
        intro hEq
        exact hna (hEq ▸ List.mem_map_of_mem (fun x => x.keymr) hmem)
      have hbe : (a.keymr == b.keymr) = false := beq_eq_false_iff_ne.mpr hne
      simp only [List.find?_cons, hbe]
      exact ih hnd' b hmem

theorem rev_map {α β : Type} (f : α → β) (l : List α) :
    (l.map f).reverse = l.reverse.map f :=
  (List.map_reverse f l).symm

theorem readEntries_spec (m : ChainModel) (hs : List String) :
    (∀ h ∈ hs, entryOK m.entries h = true) →
    ∀ (acc : List EntryRecord) (t : List Req),
    ∃ t', readEntries (hs.map (fun h => .obj [("entryhash", .str h)])) acc (chainOracle m) t
        = (.ok (acc ++ hs.map (recordOf m.entries)), t') := by
  induction hs with
  | nil => intro _ acc t; exact ⟨t, by simp [readEntries]⟩
  | cons h hs' ih =>
    intro hok acc t
    have hokh := hok h (List.mem_cons_self _ _)
    cases hlk : m.entries.lookup h with
    | none => rw [entryOK, hlk] at hokh; cases hokh
    | some e =>
      rw [entryOK, hlk, Bool.and_eq_true, Option.isSome_iff_exists, Option.isSome_iff_exists] at hokh
      obtain ⟨⟨dex, hdex⟩, ⟨dco, hdco⟩⟩ := hokh
      obtain ⟨t1, h1⟩ := ih (fun x hx => hok x (List.mem_cons_of_mem _ hx))
        (acc ++ [⟨.str e.chainid, dex, dco⟩]) (t ++ [mkReq "entry" (some (.obj [("hash", .str h)]))])
      refine ⟨t1, ?_⟩
      simp [List.map_cons, readEntries, readEntry, entry, M.bind_assoc, M.bind_jget,
        M.bind_request, M.bind_munhex, M.bind_pure, Json.get?, List.lookup,
        chainOracle_entry m h e hlk, entryJson, hdex, hdco, h1, recordOf, hlk,
        List.append_assoc]

end Factom

namespace Factom

theorem linkedB_head (b : BlockModel) (bs : List BlockModel) (h : linkedB (b :: bs) = true) :
    b.prevkeymr = headOf bs ∧ linkedB bs = true := by
  cases bs with
  | nil => exact ⟨by simpa [linkedB, headOf] using h, rfl⟩
  | cons b' rest =>
    simp only [linkedB, Bool.and_eq_true, beq_iff_eq] at h
    exact ⟨h.1, h.2⟩

theorem readChainLoop_spec (m : ChainModel) (bs : List BlockModel) :
    (∀ b ∈ bs, m.blocks.find? (fun x => x.keymr == b.keymr) = some b) →
    linkedB bs = true →
    (∀ b ∈ bs, b.keymr ≠ NULL_BLOCK) →
    (∀ b ∈ bs, ∀ h ∈ b.entryhashes, entryOK m.entries h = true) →
    ∀ (fuel : Nat), bs.length ≤ fuel → ∀ (acc : List EntryRecord) (t : List Req),
    ∃ t', readChainLoop fuel (.str (headOf bs)) acc (chainOracle m) t
        = (.ok (acc ++ expectedOf m.entries bs), t') := by
  induction bs with
  | nil =>
    intro _ _ _ _ fuel _ acc t
    refine ⟨t, ?_⟩
    rw [readChainLoop.eq_def]
    simp [headOf, jstrEq, expectedOf]
  | cons b bs' ih =>
    intro hsub hlink hnn hok fuel hf acc t
    obtain ⟨hprev, hlink'⟩ := linkedB_head b bs' hlink
    cases fuel with
    | zero => simp at hf
    | succ f =>
      have hnnb : b.keymr ≠ NULL_BLOCK := hnn b (List.mem_cons_self _ _)
      have hfind := hsub b (List.mem_cons_self _ _)
      have hcond : jstrEq (.str b.keymr) NULL_BLOCK = false := by
        simp [jstrEq, hnnb]
      obtain ⟨t1, h1⟩ := readEntries_spec m b.entryhashes.reverse
        (fun x hx => hok b (List.mem_cons_self _ _) x (List.mem_reverse.mp hx))
        acc (t ++ [mkReq "entry-block" (some (.obj [("keymr", .str b.keymr)]))])
      obtain ⟨t2, h2⟩ := ih (fun x hx => hsub x (List.mem_cons_of_mem _ hx)) hlink'
        (fun x hx => hnn x (List.mem_cons_of_mem _ hx))
        (fun x hx => hok x (List.mem_cons_of_mem _ hx)) f (by simpa using hf)
        (acc ++ b.entryhashes.reverse.map (recordOf m.entries)) t1
      refine ⟨t2, ?_⟩
      rw [show headOf (b :: bs') = b.keymr from rfl, readChainLoop.eq_def]
      simp [-List.map_reverse, hcond, entry_block, M.bind_request,
        chainOracle_block m b.keymr b hfind, M.bind_jget, M.bind_jarr, M.bind_eval,
        _request_eval, jget_eval, jarr_eval,
        blockJson, Json.get?, List.lookup, rev_map, h1, hprev, h2, expectedOf,
        List.append_assoc]

/-- C1: for every well-formed chain — blocks linked newest-to-oldest via
`prevkeymr`, entry lists oldest-to-newest within each block — `read_chain`
returns the complete list of the chain's entries in reverse chronological
order (newest first, oldest last), each decoded to a record with the entry's
chain id, decoded external ids and decoded content. -/
theorem read_chain_reverse_chronological (m : ChainModel) (hwf : m.WF) (fuel : Nat)
    (hf : m.blocks.length ≤ fuel) :
    (read_chain fuel m.chain_id (chainOracle m) []).1 = .ok (expectedOf m.entries m.blocks) := by
  obtain ⟨hnd, hnn, hlink, hok⟩ := hwf
  obtain ⟨t', ht'⟩ := readChainLoop_spec m m.blocks (find_keymr_self m.blocks hnd) hlink hnn hok
    fuel hf [] [mkReq "chain-head" (some (.obj [("chainid", .str m.chain_id)]))]
  simp [read_chain, chain_head, M.bind_request, chainOracle_head m, M.bind_jget,
    Json.get?, List.lookup, ht']

/-- C4: for every chain whose head pointer equals the null-block sentinel,
`read_chain` returns the empty list, and the only request issued is the
single chain-head lookup — no entry-block and no entry lookup. -/
theorem read_chain_empty_chain (o : Oracle) (chain_id : String) (fuel : Nat) (res : Json)
    (hresp : handleResp (o (mkReq "chain-head" (some (.obj [("chainid", .str chain_id)])))) = .ok res)
    (hhead : res.get? "chainhead" = some (.str NULL_BLOCK)) :
    read_chain fuel chain_id o []
      = (.ok [], [mkReq "chain-head" (some (.obj [("chainid", .str chain_id)]))])
    ∧ (read_chain fuel chain_id o []).2.map Req.method = ["chain-head"] := by
  have hrun : read_chain fuel chain_id o []
      = (.ok [], [mkReq "chain-head" (some (.obj [("chainid", .str chain_id)]))]) := by
    simp only [read_chain, chain_head, M.bind_request, hresp, M.bind_jget, hhead,
      List.nil_append]
    rw [readChainLoop.eq_def]
    simp [jstrEq]
  exact ⟨hrun, by rw [hrun]; simp⟩

instance (m : ChainModel) : Decidable m.WF := by
  unfold ChainModel.WF
  infer_instance

/-- A two-block demonstration chain: head block `k2` holds entry `h3`, its
predecessor `k1` holds `h1` then `h2`. -/
def demoChain : ChainModel :=
  ⟨"c1",
   [⟨"k2", "k1", ["h3"]⟩, ⟨"k1", NULL_BLOCK, ["h1", "h2"]⟩],
   [("h1", ⟨"c1", ["aa"], "00"⟩), ("h2", ⟨"c1", [], "ff"⟩), ("h3", ⟨"c1", ["bb", "cc"], ""⟩)]⟩

/-- The empty demonstration chain. -/
def emptyChain : ChainModel := ⟨"c0", [], []⟩

/-- C1 witness: reading the two-block demonstration chain yields its three
entries newest-first. -/
theorem read_chain_reverse_chronological_witness :
    demoChain.WF ∧ demoChain.blocks.length ≤ 2
    ∧ (read_chain 2 demoChain.chain_id (chainOracle demoChain) []).1
        = .ok (expectedOf demoChain.entries demoChain.blocks) :=
  ⟨by decide, by decide, read_chain_reverse_chronological demoChain (by decide) 2 (by decide)⟩

/-- C4 witness: reading the empty demonstration chain returns no entries and
issues exactly the one chain-head request. -/
theorem read_chain_empty_chain_witness :
    read_chain 3 "c0" (chainOracle emptyChain) []
      = (.ok [], [mkReq "chain-head" (some (.obj [("chainid", .str "c0")]))]) :=
  (read_chain_empty_chain (chainOracle emptyChain) "c0" 3
    (.obj [("chainhead", .str NULL_BLOCK)]) rfl rfl).1

end Factom
